import Mathlib

set_option maxRecDepth 8000

/-!
Verification of the NYC real-estate sales data-preparation utility.

The development shallowly embeds the two scripts of the repository:
`scripts/process_sales_data.py` (the normalizer) and
`scripts/download_data.py` (the fetcher).  Spreadsheet cells are modelled
by `Cell`; a data frame by `DF` (a list of column labels plus rows of
cells).  The missing markers are modelled separately: `Cell.na` stands for
a float NaN (what `pandas.read_excel` puts in a blank cell and what
`to_numeric`/`to_datetime` produce under `errors='coerce'`), while
`Cell.pyNone` stands for the Python `None` object that the script assigns
when back-filling a canonical column absent from the source
(`df[col] = None` stores the `None` object in an object-dtype column).
Both count as missing for `dropna`, but `astype(str)` renders them as the
distinct strings "nan" and "None".
-/

namespace NycSales

/-- A spreadsheet / data-frame cell.  `na` is NaN (also covering NaT),
`pyNone` is the Python `None` object, `num` a numeric value (integral
numerics suffice for the properties verified here), `date` a parsed
datetime (encoded as an integer). -/
inductive Cell where
  | na : Cell
  | pyNone : Cell
  | str : String → Cell
  | num : Int → Cell
  | date : Int → Cell
deriving DecidableEq

/-- `pandas.isna`: both NaN/NaT and `None` are missing. -/
def isNA : Cell → Bool
  | Cell.na => true
  | Cell.pyNone => true
  | _ => false

/-- Python `str()` applied to a cell value, as used by `find_header_row`
and by `astype(str)`.  `str(float('nan')) = "nan"`, `str(None) = "None"`. -/
def cellStr : Cell → String
  | Cell.na => "nan"
  | Cell.pyNone => "None"
  | Cell.str s => s
  | Cell.num n => toString n
  | Cell.date n => "Timestamp " ++ toString n

/-- Python `str.lower()` (char-list implementation, so that proofs can
evaluate it). -/
def toLowerStr (s : String) : String := String.mk (s.data.map Char.toLower)

/-- Python `str.upper()`. -/
def toUpperStr (s : String) : String := String.mk (s.data.map Char.toUpper)

/-- Python `str.strip()`: drop leading and trailing whitespace. -/
def trimStr (s : String) : String :=
  String.mk (((s.data.dropWhile Char.isWhitespace).reverse.dropWhile Char.isWhitespace).reverse)

/-- Collapse every run of whitespace characters to a single space,
mirroring Python's `re.sub(r'\s+', ' ', s)`.  The boolean flag records
whether the previous character was whitespace. -/
def collapseWsAux : List Char → Bool → List Char
  | [], _ => []
  | c :: cs, inWs =>
    if c.isWhitespace then
      if inWs then collapseWsAux cs true else ' ' :: collapseWsAux cs true
    else c :: collapseWsAux cs false

/-- `clean_name` from `process_sales_data.py`: collapse whitespace runs,
strip, lower-case. -/
def clean_name (s : String) : String :=
  toLowerStr (trimStr (String.mk (collapseWsAux s.data false)))

/-- The 21 canonical column names (`CANONICAL_COLUMNS`). -/
def CANONICAL_COLUMNS : List String :=
  ["borough", "neighborhood", "building_class_category", "tax_class_at_present",
   "block", "lot", "easement", "building_class_at_present", "address",
   "apartment_number", "zip_code", "residential_units", "commercial_units",
   "total_units", "land_square_feet", "gross_square_feet", "year_built",
   "tax_class_at_time_of_sale", "building_class_at_time_of_sale",
   "sale_price", "sale_date"]

/-- The static alias table (`COLUMN_MAP`), mapping cleaned messy header
variants to canonical names. -/
def COLUMN_MAP : List (String × String) :=
  [("borough", "borough"),
   ("neighborhood", "neighborhood"),
   ("building class category", "building_class_category"),
   ("tax class as of final roll 18/19", "tax_class_at_present"),
   ("tax class at present", "tax_class_at_present"),
   ("block", "block"),
   ("lot", "lot"),
   ("ease-ment", "easement"),
   ("building class as of final roll 18/19", "building_class_at_present"),
   ("building class at present", "building_class_at_present"),
   ("address", "address"),
   ("apartment number", "apartment_number"),
   ("zip code", "zip_code"),
   ("residential units", "residential_units"),
   ("commercial units", "commercial_units"),
   ("total units", "total_units"),
   ("land square feet", "land_square_feet"),
   ("gross square feet", "gross_square_feet"),
   ("year built", "year_built"),
   ("tax class at time of sale", "tax_class_at_time_of_sale"),
   ("building class at time of sale", "building_class_at_time_of_sale"),
   ("sale price", "sale_price"),
   ("sale date", "sale_date")]

/-- First-match association lookup (Python dict lookup / `rename`). -/
def lookupMap (m : List (String × String)) (k : String) : Option String :=
  match m with
  | [] => none
  | p :: rest => if p.1 == k then some p.2 else lookupMap rest k

/-- Full canonicalization of one header label: clean, then apply the alias
table, keeping the cleaned form when there is no alias entry. -/
def canonName (s : String) : String :=
  (lookupMap COLUMN_MAP (clean_name s)).getD (clean_name s)

/-- The per-row test of `find_header_row`: some cell's `str(...)`, trimmed
and upper-cased, equals the keyword exactly. -/
def rowMatchesKeyword (keyword : String) (row : List Cell) : Bool :=
  row.any (fun cell => toUpperStr (trimStr (cellStr cell)) == keyword)

/-- The scanning loop of `find_header_row`, carrying the running row
index. -/
def findHeaderAux (keyword : String) : Nat → List (List Cell) → Option Nat
  | _, [] => none
  | i, row :: rest =>
    if rowMatchesKeyword keyword row then some i else findHeaderAux keyword (i + 1) rest

/-- `find_header_row`: scan only the first 10 rows (`nrows=10`), return the
index of the first matching row; `none` models the raised `ValueError`. -/
def find_header_row (sheet : List (List Cell)) (keyword : String) : Option Nat :=
  findHeaderAux keyword 0 (sheet.take 10)

/-- A data frame: ordered column labels plus rows of cells (positionally
aligned with the labels). -/
structure DF where
  cols : List String
  rows : List (List Cell)
deriving DecidableEq

/-- Index of the first column with the given label. -/
def colIndex (name : String) : List String → Option Nat
  | [] => none
  | c :: cs => if c == name then some 0 else (colIndex name cs).map (· + 1)

/-- Value of a row at a named column (missing column or short row reads as
NaN, as `pandas` pads with NaN). -/
def rowGet (cols : List String) (row : List Cell) (name : String) : Cell :=
  match colIndex name cols with
  | some i => row.getD i Cell.na
  | none => Cell.na

/-- Apply `f` to the entry at position `i` of a row. -/
def mapAt (f : Cell → Cell) : Nat → List Cell → List Cell
  | _, [] => []
  | 0, c :: cs => f c :: cs
  | i + 1, c :: cs => c :: mapAt f i cs

/-- `df[name] = f(df[name])`: transform one named column in place. -/
def mapCol (df : DF) (name : String) (f : Cell → Cell) : DF :=
  match colIndex name df.cols with
  | some i => { cols := df.cols, rows := df.rows.map (mapAt f i) }
  | none => df

/-- Pad (with NaN) or truncate a row to the given width, as the reader
aligns every data row with the header. -/
def setWidth : Nat → List Cell → List Cell
  | 0, _ => []
  | n + 1, [] => Cell.na :: setWidth n []
  | n + 1, c :: cs => c :: setWidth n cs

/-- Loading step: the located header row provides the column labels
(`str()` of each cell), the following rows the data. -/
def loadDF (header : List Cell) (data : List (List Cell)) : DF :=
  let cols := header.map cellStr
  { cols := cols, rows := data.map (setWidth cols.length) }

/-- `clean_column_names`: clean every label, then rename via the alias
table (unmatched labels keep their cleaned form). -/
def clean_column_names (df : DF) (column_map : List (String × String)) : DF :=
  let cleaned := df.cols.map (fun c => clean_name c)
  { cols := cleaned.map (fun c => (lookupMap column_map c).getD c), rows := df.rows }

/-- Step 4 of the pipeline: `df[col] = None` for every canonical column
not present, in canonical order (hence appended in that order). -/
def addMissingCanonical (df : DF) : DF :=
  let missing := CANONICAL_COLUMNS.filter (fun c => !(df.cols.contains c))
  { cols := df.cols ++ missing,
    rows := df.rows.map (fun r => r ++ missing.map (fun _ => Cell.pyNone)) }

/-- `df = df[CANONICAL_COLUMNS]`: project to the canonical columns in
canonical order. -/
def projectCanonical (df : DF) : DF :=
  { cols := CANONICAL_COLUMNS,
    rows := df.rows.map (fun r => CANONICAL_COLUMNS.map (fun c => rowGet df.cols r c)) }

/-- Numeric value of a digit character. -/
def digitVal (c : Char) : Nat := c.toNat - 48

/-- Accumulator loop of the decimal parser; fails on any non-digit. -/
def parseDigitsAux : Nat → List Char → Option Nat
  | acc, [] => some acc
  | acc, c :: cs => if c.isDigit then parseDigitsAux (acc * 10 + digitVal c) cs else none

/-- Parse a non-empty all-digit character list. -/
def parseNatStr (s : List Char) : Option Nat :=
  match s with
  | [] => none
  | _ => parseDigitsAux 0 s

/-- Character-level part of the numeric parser: optional leading sign,
then digits. -/
def parseIntChars : List Char → Option Int
  | [] => none
  | c :: cs =>
    if c = '-' then (parseNatStr cs).map (fun n => -(n : Int))
    else (parseNatStr (c :: cs)).map (fun n => (n : Int))

/-- The numeric strings accepted by `pd.to_numeric` (restricted to the
integral numerals relevant here): surrounding whitespace is ignored, then
an optional sign and digits; anything else — for example "1,200" or the
empty string — fails. -/
def parseIntStr (s : String) : Option Int :=
  parseIntChars (trimStr s).data

/-- `pd.to_numeric(_, errors='coerce')` on one cell: numbers pass through,
parseable strings parse, everything unparseable or missing becomes NaN. -/
def toNumericCell : Cell → Cell
  | Cell.na => Cell.na
  | Cell.pyNone => Cell.na
  | Cell.num n => Cell.num n
  | Cell.date _ => Cell.na
  | Cell.str s =>
    match parseIntStr s with
    | some n => Cell.num n
    | none => Cell.na

/-- The date strings accepted by the model of `pd.to_datetime`:
`YYYY-MM-DD` with a plausible month and day, encoded as `yyyymmdd`. -/
def parseDateStr (s : String) : Option Int :=
  match (trimStr s).data with
  | [y1, y2, y3, y4, '-', m1, m2, '-', d1, d2] =>
    if ([y1, y2, y3, y4, m1, m2, d1, d2].all Char.isDigit) then
      match parseNatStr [y1, y2, y3, y4], parseNatStr [m1, m2], parseNatStr [d1, d2] with
      | some y, some m, some d =>
        if 1 ≤ m ∧ m ≤ 12 ∧ 1 ≤ d ∧ d ≤ 31 then
          some (((y * 100 + m) * 100 + d : Nat) : Int)
        else none
      | _, _, _ => none
    else none
  | _ => none

/-- `pd.to_datetime(_, errors='coerce')` on one cell: datetimes pass
through, numbers are interpreted (epoch-style) as datetimes, parseable
strings parse, everything else becomes NaT (modelled by `na`). -/
def toDatetimeCell : Cell → Cell
  | Cell.na => Cell.na
  | Cell.pyNone => Cell.na
  | Cell.num n => Cell.date n
  | Cell.date d => Cell.date d
  | Cell.str s =>
    match parseDateStr s with
    | some d => Cell.date d
    | none => Cell.na

/-- The designated numeric columns (`numeric_cols`). -/
def numeric_cols : List String :=
  ["sale_price", "gross_square_feet", "land_square_feet", "residential_units",
   "commercial_units", "total_units", "year_built", "zip_code", "block", "lot"]

/-- Step 5a: coerce every designated numeric column. -/
def coerceNumerics (df : DF) : DF :=
  numeric_cols.foldl (fun d c => mapCol d c toNumericCell) df

/-- Step 5b: coerce the sale-date column. -/
def coerceDate (df : DF) : DF :=
  mapCol df "sale_date" toDatetimeCell

/-- A row every entry of which is missing. -/
def rowAllNA (r : List Cell) : Bool := r.all isNA

/-- `df.dropna(how='all')`: drop the rows whose every entry is missing. -/
def dropAllNa (df : DF) : DF :=
  { cols := df.cols, rows := df.rows.filter (fun r => !(rowAllNA r)) }

/-- Stages 2-5 of `process_sales_file` (everything after header location,
before type coercion): load, clean labels, back-fill, project. -/
def projectedStage (header : List Cell) (data : List (List Cell)) : DF :=
  projectCanonical (addMissingCanonical (clean_column_names (loadDF header data) COLUMN_MAP))

/-- Stages 2-7 of `process_sales_file` (everything except the final
`dropna`). -/
def preDropStage (header : List Cell) (data : List (List Cell)) : DF :=
  coerceDate (coerceNumerics (projectedStage header data))

/-- `process_sales_file` on the raw grid of a readable spreadsheet:
locate the header (returning `none` — the Python `None` — when the
keyword is absent from the first 10 rows), then run the cleaning
pipeline. -/
def process_sales_file (sheet : List (List Cell)) : Option DF :=
  match find_header_row sheet "BOROUGH" with
  | none => none
  | some h => some (dropAllNa (preDropStage ((sheet.drop h).headD []) (sheet.drop (h + 1))))

/-- `pd.concat(all_dfs, ignore_index=True)` for per-file outputs, which
all carry the canonical columns. -/
def concatDFs (dfs : List DF) : DF :=
  { cols := CANONICAL_COLUMNS, rows := (dfs.map DF.rows).flatten }

/-- `astype(str)` on one cell. -/
def astypeStrCell (c : Cell) : Cell := Cell.str (cellStr c)

/-- `df[name] = df[name].astype(str)`. -/
def astypeStrCol (df : DF) (name : String) : DF :=
  mapCol df name astypeStrCell

/-- The aggregation steps of `main`: concatenate, then force the two
mixed-type columns to text. -/
def aggregate (dfs : List DF) : DF :=
  astypeStrCol (astypeStrCol (concatDFs dfs) "tax_class_at_present") "apartment_number"

/-- `main` at the level of raw sheets: process every file, drop the
failures, report `none` ("no data was successfully processed", no output
written) on an empty corpus, otherwise aggregate. -/
def runNormalizer (sheets : List (List (List Cell))) : Option DF :=
  let dfs := sheets.filterMap process_sales_file
  if dfs.isEmpty then none else some (aggregate dfs)

/-- Python exception classes relevant to the scripts: `ValueError` versus
everything else (`BadZipFile`, `OSError`, ...). -/
inductive PyErr where
  | valueError : String → PyErr
  | other : String → PyErr
deriving DecidableEq

/-- An on-disk spreadsheet: either readable with a raw cell grid, or one
whose read raises an exception. -/
inductive ExcelFile where
  | good : List (List Cell) → ExcelFile
  | bad : PyErr → ExcelFile
deriving DecidableEq

/-- `pd.read_excel` as a fallible operation. -/
def readExcelE : ExcelFile → Except PyErr (List (List Cell))
  | ExcelFile.good s => Except.ok s
  | ExcelFile.bad e => Except.error e

/-- `find_header_row` including its own `pd.read_excel` call: a read
failure propagates, a missing keyword raises `ValueError`. -/
def find_header_rowE (f : ExcelFile) (keyword : String) : Except PyErr Nat :=
  match readExcelE f with
  | Except.error e => Except.error e
  | Except.ok sheet =>
    match find_header_row sheet keyword with
    | some i => Except.ok i
    | none => Except.error (PyErr.valueError "Header keyword not found in the first 10 rows")

/-- `process_sales_file` with its exception behavior: only `ValueError`
from the header-location try-block is caught (the function then returns
`None`); any other exception, and any exception of the second read,
propagates to the caller. -/
def process_sales_fileE (f : ExcelFile) : Except PyErr (Option DF) :=
  match find_header_rowE f "BOROUGH" with
  | Except.error (PyErr.valueError _) => Except.ok none
  | Except.error e => Except.error e
  | Except.ok h =>
    match readExcelE f with
    | Except.error e => Except.error e
    | Except.ok sheet =>
      Except.ok (some (dropAllNa (preDropStage ((sheet.drop h).headD []) (sheet.drop (h + 1)))))

/-- Result of `os.listdir` on the raw-data directory: the `.xlsx` entries,
or a raised `OSError`. -/
inductive DirListing where
  | ok : List ExcelFile → DirListing
  | err : PyErr → DirListing

/-- The list comprehension `[process_sales_file(f) for f in all_files]`:
the first escaping exception aborts the whole run. -/
def processAllE : List ExcelFile → Except PyErr (List (Option DF))
  | [] => Except.ok []
  | f :: fs =>
    match process_sales_fileE f with
    | Except.error e => Except.error e
    | Except.ok d =>
      match processAllE fs with
      | Except.error e => Except.error e
      | Except.ok ds => Except.ok (d :: ds)

/-- `main` of the normalizer: list the directory (a listing failure
propagates), return with no output when no files or no successful frames
exist, aggregate otherwise; a failing `to_parquet` write propagates. -/
def mainE (listing : DirListing) (writeFailure : Option PyErr) : Except PyErr (Option DF) :=
  match listing with
  | DirListing.err e => Except.error e
  | DirListing.ok files =>
    if files.isEmpty then Except.ok none
    else
      match processAllE files with
      | Except.error e => Except.error e
      | Except.ok optDfs =>
        let dfs := optDfs.filterMap id
        if dfs.isEmpty then Except.ok none
        else
          match writeFailure with
          | some e => Except.error e
          | none => Except.ok (some (aggregate dfs))

/-- `YEARS = range(2018, 2025)`. -/
def YEARS : List Nat := List.range' 2018 7

/-- `BOROUGHS`. -/
def BOROUGHS : List String :=
  ["manhattan", "bronx", "brooklyn", "queens", "staten_island"]

/-- `BASE_URL`. -/
def BASE_URL : String :=
  "https://www.nyc.gov/assets/finance/downloads/pdf/rolling_sales/annualized-sales/"

/-- The hyphenated borough form computed inside the download loop
(`borough.replace('_', '-')`, with the special case for Staten Island). -/
def fileBoroughName (borough : String) : String :=
  let hyph := borough.replace "_" "-"
  if borough == "staten_island" then "staten-island" else hyph

/-- The two artifacts the loop body actually builds from a (year, borough)
pair. -/
structure FetchTarget where
  url : String
  path : String
deriving DecidableEq

/-- The download loop body, parameterized by the hyphenation function it
computes (and, as in the source, never uses): the filename is built from
the raw underscore borough name. -/
def fetchTargetWith (hyphenate : String → String) (year : Nat) (borough : String) : FetchTarget :=
  let file_borough_name := hyphenate borough
  let filename := toString year ++ "_" ++ borough ++ ".xlsx"
  { url := BASE_URL ++ toString year ++ "/" ++ filename,
    path := "data/raw/" ++ filename }

/-- The loop body as written, with the source's hyphenation computation. -/
def fetchTarget (year : Nat) (borough : String) : FetchTarget :=
  fetchTargetWith fileBoroughName year borough

/-- `total_files = len(YEARS) * len(BOROUGHS)`. -/
def total_files : Nat := YEARS.length * BOROUGHS.length

/-- The column labels a given source sheet contributes after cleaning and
alias renaming, when its header was located at row `hi`. -/
def sourceCols (sheet : List (List Cell)) (hi : Nat) : List String :=
  (clean_column_names (loadDF ((sheet.drop hi).headD []) (sheet.drop (hi + 1))) COLUMN_MAP).cols

/-- The row-level effect of the two coercion stages on a canonical-shaped
row: the ten numeric columns sit at positions 19, 15, 14, 11, 12, 13, 16,
10, 4, 5 (in the application order of `numeric_cols`), the sale date at
position 20. -/
def coerceRow (r : List Cell) : List Cell :=
  mapAt toDatetimeCell 20
    (mapAt toNumericCell 5
      (mapAt toNumericCell 4
        (mapAt toNumericCell 10
          (mapAt toNumericCell 16
            (mapAt toNumericCell 13
              (mapAt toNumericCell 12
                (mapAt toNumericCell 11
                  (mapAt toNumericCell 14
                    (mapAt toNumericCell 15
                      (mapAt toNumericCell 19 r))))))))))

/-- Fixture: a sheet with one extra non-canonical column and one kept
row. -/
def sheetAddrJunk : List (List Cell) :=
  [[Cell.str "BOROUGH", Cell.str "ADDRESS", Cell.str "JUNK"],
   [Cell.na, Cell.str "A", Cell.str "J"]]

/-- The single processed row of `sheetAddrJunk`. -/
def rowAddrJunk : List Cell :=
  [Cell.na, Cell.pyNone, Cell.pyNone, Cell.pyNone, Cell.na, Cell.na, Cell.pyNone, Cell.pyNone,
   Cell.str "A", Cell.pyNone, Cell.na, Cell.na, Cell.na, Cell.na, Cell.na, Cell.na, Cell.na,
   Cell.pyNone, Cell.pyNone, Cell.na, Cell.na]

/-- The per-file output for `sheetAddrJunk`. -/
def dfAddrJunk : DF := DF.mk CANONICAL_COLUMNS [rowAddrJunk]

/-- Fixture: a sheet whose only canonical column is the borough. -/
def sheetBorOnly : List (List Cell) :=
  [[Cell.str "BOROUGH"], [Cell.str "1"]]

/-- The single processed row of `sheetBorOnly`. -/
def rowBorOnly : List Cell :=
  [Cell.str "1", Cell.pyNone, Cell.pyNone, Cell.pyNone, Cell.na, Cell.na, Cell.pyNone, Cell.pyNone,
   Cell.pyNone, Cell.pyNone, Cell.na, Cell.na, Cell.na, Cell.na, Cell.na, Cell.na, Cell.na,
   Cell.pyNone, Cell.pyNone, Cell.na, Cell.na]

/-- The per-file output for `sheetBorOnly`. -/
def dfBorOnly : DF := DF.mk CANONICAL_COLUMNS [rowBorOnly]

/-- Fixture: a sheet lacking the tax-class and apartment-number columns,
with one row kept thanks to its address value. -/
def sheetAddrOnly : List (List Cell) :=
  [[Cell.str "BOROUGH", Cell.str "ADDRESS"], [Cell.na, Cell.str "X"]]

/-- The single combined row of `runNormalizer [sheetAddrOnly]`. -/
def rowAddrOnly : List Cell :=
  [Cell.na, Cell.pyNone, Cell.pyNone, Cell.str "None", Cell.na, Cell.na, Cell.pyNone, Cell.pyNone,
   Cell.str "X", Cell.str "None", Cell.na, Cell.na, Cell.na, Cell.na, Cell.na, Cell.na, Cell.na,
   Cell.pyNone, Cell.pyNone, Cell.na, Cell.na]

/-- The combined data set built from `sheetAddrOnly` alone. -/
def dfAddrOnly : DF := DF.mk CANONICAL_COLUMNS [rowAddrOnly]

/-- Fixture: a sheet whose only non-missing data cell is an unparseable
sale price. -/
def sheetBadPrice : List (List Cell) :=
  [[Cell.str "BOROUGH", Cell.str "SALE PRICE"], [Cell.na, Cell.str "1,200"]]

/-- The projected (pre-coercion) row of `sheetBadPrice`. -/
def projRowBadPrice : List Cell :=
  [Cell.na, Cell.pyNone, Cell.pyNone, Cell.pyNone, Cell.pyNone, Cell.pyNone, Cell.pyNone,
   Cell.pyNone, Cell.pyNone, Cell.pyNone, Cell.pyNone, Cell.pyNone, Cell.pyNone, Cell.pyNone,
   Cell.pyNone, Cell.pyNone, Cell.pyNone, Cell.pyNone, Cell.pyNone, Cell.str "1,200",
   Cell.pyNone]

/-- The per-file output for `sheetBadPrice`: its only row is discarded. -/
def dfBadPrice : DF := DF.mk CANONICAL_COLUMNS []

/-- Fixture: a sheet with no header keyword anywhere. -/
def sheetNoKeyword : List (List Cell) := [[Cell.str "nope"]]

/-- Fixture: the keyword first appears at row index 10, one row beyond the
scanned window. -/
def sheetKeywordLate : List (List Cell) :=
  List.replicate 10 [Cell.str "x"] ++ [[Cell.str "BOROUGH"]]

/-! Auxiliary lemmas about the list-level operations of the embedding. -/

theorem getD_take {α : Type} (l : List α) (n j : Nat) (d : α) (h : j < n) :
    (l.take n).getD j d = l.getD j d := by
  induction l generalizing n j with
  | nil => simp
  | cons a t ih =>
    cases n with
    | zero => omega
    | succ n =>
      cases j with
      | zero => simp
      | succ j => simpa using ih n j (by omega)

theorem getD_append_right {α : Type} (l1 l2 : List α) (j : Nat) (d : α) :
    (l1 ++ l2).getD (l1.length + j) d = l2.getD j d := by
  induction l1 with
  | nil => simp
  | cons a t ih => simpa [Nat.succ_add] using ih

theorem getD_map {α β : Type} (f : α → β) (l : List α) (i : Nat) (h : i < l.length)
    (d : β) (d' : α) : (l.map f).getD i d = f (l.getD i d') := by
  induction l generalizing i with
  | nil => simp at h
  | cons a t ih =>
    cases i with
    | zero => simp
    | succ i => simpa using ih i (by simpa using h)

theorem mapAt_length (f : Cell → Cell) (i : Nat) (r : List Cell) :
    (mapAt f i r).length = r.length := by
  induction r generalizing i with
  | nil => cases i <;> rfl
  | cons c cs ih =>
    cases i with
    | zero => rfl
    | succ i => simpa [mapAt] using ih i

theorem mapAt_getD (f : Cell → Cell) (i : Nat) (r : List Cell) (j : Nat) (d : Cell) :
    (mapAt f i r).getD j d = if i = j ∧ j < r.length then f (r.getD j d) else r.getD j d := by
  induction r generalizing i j with
  | nil => simp [mapAt]
  | cons c cs ih =>
    cases i with
    | zero =>
      cases j with
      | zero => simp [mapAt]
      | succ j => simp [mapAt]
    | succ i =>
      cases j with
      | zero => simp [mapAt]
      | succ j =>
        simp only [mapAt, List.getD_cons_succ, ih i j, List.length_cons]
        by_cases hc : i = j ∧ j < cs.length
        · rw [if_pos hc, if_pos (by omega)]
        · rw [if_neg hc, if_neg (by omega)]

theorem setWidth_length (n : Nat) (r : List Cell) : (setWidth n r).length = n := by
  induction n generalizing r with
  | zero => rfl
  | succ n ih =>
    cases r with
    | nil => simpa [setWidth] using ih []
    | cons c cs => simpa [setWidth] using ih cs

theorem colIndex_eq_none (n : String) (l : List String) : colIndex n l = none ↔ n ∉ l := by
  induction l with
  | nil => simp [colIndex]
  | cons c cs ih =>
    by_cases h : c = n
    · subst h
      simp [colIndex]
    · have hb : (c == n) = false := by simpa using h
      rw [colIndex, hb]
      simp only [Bool.false_eq_true, if_false, Option.map_eq_none', ih, List.mem_cons, not_or]
      exact ⟨fun hn => ⟨fun he => h he.symm, hn⟩, fun hn => hn.2⟩

theorem colIndex_some (n : String) (l : List String) (i : Nat) (h : colIndex n l = some i) :
    i < l.length ∧ ∀ d, l.getD i d = n := by
  induction l generalizing i with
  | nil => simp [colIndex] at h
  | cons c cs ih =>
    by_cases hb : c = n
    · subst hb
      simp [colIndex] at h
      subst h
      simp
    · have hb' : (c == n) = false := by simpa using hb
      rw [colIndex, hb'] at h
      simp only [Bool.false_eq_true, if_false, Option.map_eq_some'] at h
      obtain ⟨j, hj, rfl⟩ := h
      obtain ⟨h1, h2⟩ := ih j hj
      exact ⟨by simpa using h1, fun d => by simpa using h2 d⟩

theorem colIndex_append_none (n : String) (l1 l2 : List String)
    (h : colIndex n l1 = none) :
    colIndex n (l1 ++ l2) = (colIndex n l2).map (fun j => l1.length + j) := by
  induction l1 with
  | nil => cases hcl : colIndex n l2 <;> simp [hcl]
  | cons c cs ih =>
    by_cases hb : (c == n) = true
    · rw [colIndex, if_pos hb] at h
      exact absurd h (by simp)
    · have hb' : (c == n) = false := by simpa using hb
      rw [colIndex, hb'] at h
      simp only [Bool.false_eq_true, if_false, Option.map_eq_none'] at h
      rw [List.cons_append, colIndex, hb']
      simp only [Bool.false_eq_true, if_false, ih h]
      cases hcl : colIndex n l2 <;> simp [hcl] <;> omega

theorem isNA_toNumericCell {c : Cell} (h : isNA c = true) :
    isNA (toNumericCell c) = true := by
  cases c <;> simp_all [isNA, toNumericCell]

theorem isNA_toDatetimeCell {c : Cell} (h : isNA c = true) :
    isNA (toDatetimeCell c) = true := by
  cases c <;> simp_all [isNA, toDatetimeCell]

theorem isNA_toNumericCell_of (x : Cell)
    (h : isNA x = true ∨ ∃ s, x = Cell.str s ∧ parseIntStr s = none) :
    isNA (toNumericCell x) = true := by
  rcases h with h | ⟨s, rfl, hp⟩
  · exact isNA_toNumericCell h
  · simp [toNumericCell, hp, isNA]

theorem isNA_toDatetimeCell_of (x : Cell)
    (h : isNA x = true ∨ ∃ s, x = Cell.str s ∧ parseDateStr s = none) :
    isNA (toDatetimeCell x) = true := by
  rcases h with h | ⟨s, rfl, hp⟩
  · exact isNA_toDatetimeCell h
  · simp [toDatetimeCell, hp, isNA]

theorem rowGet_mapAt_isNA (cols : List String) (r : List Cell) (name : String)
    (f : Cell → Cell) (i : Nat) (hf : ∀ c, isNA c = true → isNA (f c) = true)
    (h : isNA (rowGet cols r name) = true) :
    isNA (rowGet cols (mapAt f i r) name) = true := by
  unfold rowGet at h ⊢
  cases hci : colIndex name cols with
  | none => simpa [hci] using h
  | some j =>
    rw [hci] at h
    have h' : isNA (r.getD j Cell.na) = true := h
    show isNA ((mapAt f i r).getD j Cell.na) = true
    rw [mapAt_getD]
    by_cases hc : i = j ∧ j < r.length
    · rw [if_pos hc]
      exact hf _ h'
    · rwa [if_neg hc]

theorem mapCol_cols (df : DF) (n : String) (f : Cell → Cell) :
    (mapCol df n f).cols = df.cols := by
  unfold mapCol
  cases colIndex n df.cols <;> rfl

theorem mapCol_isNA (df : DF) (n0 : String) (f : Cell → Cell) (name : String)
    (hf : ∀ c, isNA c = true → isNA (f c) = true)
    (h : ∀ r ∈ df.rows, isNA (rowGet df.cols r name) = true) :
    ∀ r ∈ (mapCol df n0 f).rows, isNA (rowGet (mapCol df n0 f).cols r name) = true := by
  intro r hr
  rw [mapCol_cols]
  unfold mapCol at hr
  cases hci : colIndex n0 df.cols with
  | none =>
    rw [hci] at hr
    exact h r hr
  | some i =>
    rw [hci] at hr
    simp only [List.mem_map] at hr
    obtain ⟨r0, hr0, rfl⟩ := hr
    exact rowGet_mapAt_isNA _ _ _ _ _ hf (h r0 hr0)

theorem mapCol_row_length (df : DF) (n : String) (f : Cell → Cell) (k : Nat)
    (h : ∀ r ∈ df.rows, r.length = k) :
    ∀ r ∈ (mapCol df n f).rows, r.length = k := by
  intro r hr
  unfold mapCol at hr
  cases hci : colIndex n df.cols with
  | none =>
    rw [hci] at hr
    exact h r hr
  | some i =>
    rw [hci] at hr
    simp only [List.mem_map] at hr
    obtain ⟨r0, hr0, rfl⟩ := hr
    rw [mapAt_length]
    exact h r0 hr0

theorem foldlMapCol_cols (names : List String) (f : Cell → Cell) (df : DF) :
    (names.foldl (fun d c => mapCol d c f) df).cols = df.cols := by
  induction names generalizing df with
  | nil => rfl
  | cons n ns ih => rw [List.foldl_cons, ih, mapCol_cols]

theorem foldlMapCol_isNA (names : List String) (f : Cell → Cell) (df : DF) (name : String)
    (hf : ∀ c, isNA c = true → isNA (f c) = true)
    (h : ∀ r ∈ df.rows, isNA (rowGet df.cols r name) = true) :
    ∀ r ∈ (names.foldl (fun d c => mapCol d c f) df).rows,
      isNA (rowGet (names.foldl (fun d c => mapCol d c f) df).cols r name) = true := by
  induction names generalizing df with
  | nil => exact h
  | cons n ns ih =>
    rw [List.foldl_cons]
    exact ih (mapCol df n f) (mapCol_isNA df n f name hf h)

theorem foldlMapCol_row_length (names : List String) (f : Cell → Cell) (df : DF) (k : Nat)
    (h : ∀ r ∈ df.rows, r.length = k) :
    ∀ r ∈ (names.foldl (fun d c => mapCol d c f) df).rows, r.length = k := by
  induction names generalizing df with
  | nil => exact h
  | cons n ns ih =>
    rw [List.foldl_cons]
    exact ih (mapCol df n f) (mapCol_row_length df n f k h)

/-! Pipeline-stage lemmas. -/

theorem projectedStage_cols (header : List Cell) (data : List (List Cell)) :
    (projectedStage header data).cols = CANONICAL_COLUMNS := rfl

theorem projectedStage_row_length (header : List Cell) (data : List (List Cell)) :
    ∀ r ∈ (projectedStage header data).rows, r.length = 21 := by
  intro r hr
  unfold projectedStage projectCanonical at hr
  simp only [List.mem_map] at hr
  obtain ⟨r0, _, rfl⟩ := hr
  simp [CANONICAL_COLUMNS]

theorem preDropStage_cols (header : List Cell) (data : List (List Cell)) :
    (preDropStage header data).cols = CANONICAL_COLUMNS := by
  unfold preDropStage coerceDate coerceNumerics
  rw [mapCol_cols, foldlMapCol_cols, projectedStage_cols]

theorem preDropStage_row_length (header : List Cell) (data : List (List Cell)) :
    ∀ r ∈ (preDropStage header data).rows, r.length = 21 := by
  unfold preDropStage coerceDate coerceNumerics
  exact mapCol_row_length _ _ _ _
    (foldlMapCol_row_length _ _ _ _ (projectedStage_row_length header data))

theorem process_some_elim (sheet : List (List Cell)) (df : DF)
    (h : process_sales_file sheet = some df) :
    ∃ hi, find_header_row sheet "BOROUGH" = some hi ∧
      df = dropAllNa (preDropStage ((sheet.drop hi).headD []) (sheet.drop (hi + 1))) := by
  unfold process_sales_file at h
  cases hf : find_header_row sheet "BOROUGH" with
  | none =>
    rw [hf] at h
    exact absurd h (by simp)
  | some hi =>
    rw [hf] at h
    exact ⟨hi, rfl, (Option.some.inj h).symm⟩

theorem dropAllNa_cols (df : DF) : (dropAllNa df).cols = df.cols := rfl

theorem dropAllNa_rows (df : DF) :
    (dropAllNa df).rows = df.rows.filter (fun r => !(rowAllNA r)) := rfl

theorem process_row_length (sheet : List (List Cell)) (df : DF)
    (h : process_sales_file sheet = some df) :
    ∀ r ∈ df.rows, r.length = 21 := by
  obtain ⟨hi, _, rfl⟩ := process_some_elim sheet df h
  intro r hr
  rw [dropAllNa_rows] at hr
  exact preDropStage_row_length _ _ r (List.mem_of_mem_filter hr)

theorem process_cols (sheet : List (List Cell)) (df : DF)
    (h : process_sales_file sheet = some df) :
    df.cols = CANONICAL_COLUMNS := by
  obtain ⟨hi, _, rfl⟩ := process_some_elim sheet df h
  rw [dropAllNa_cols]
  exact preDropStage_cols _ _

theorem mapCol_mk_canonical (n : String) (f : Cell → Cell) (i : Nat) (rows : List (List Cell))
    (h : colIndex n CANONICAL_COLUMNS = some i) :
    mapCol (DF.mk CANONICAL_COLUMNS rows) n f
      = DF.mk CANONICAL_COLUMNS (rows.map (mapAt f i)) := by
  simp [mapCol, h]

theorem coerceStage_eq (rows : List (List Cell)) :
    coerceDate (coerceNumerics (DF.mk CANONICAL_COLUMNS rows))
      = DF.mk CANONICAL_COLUMNS (rows.map coerceRow) := by
  unfold coerceNumerics numeric_cols coerceDate
  simp only [List.foldl_cons, List.foldl_nil]
  rw [mapCol_mk_canonical "sale_price" _ 19 _ rfl,
      mapCol_mk_canonical "gross_square_feet" _ 15 _ rfl,
      mapCol_mk_canonical "land_square_feet" _ 14 _ rfl,
      mapCol_mk_canonical "residential_units" _ 11 _ rfl,
      mapCol_mk_canonical "commercial_units" _ 12 _ rfl,
      mapCol_mk_canonical "total_units" _ 13 _ rfl,
      mapCol_mk_canonical "year_built" _ 16 _ rfl,
      mapCol_mk_canonical "zip_code" _ 10 _ rfl,
      mapCol_mk_canonical "block" _ 4 _ rfl,
      mapCol_mk_canonical "lot" _ 5 _ rfl,
      mapCol_mk_canonical "sale_date" _ 20 _ rfl]
  simp only [List.map_map]
  rfl

theorem preDropStage_eq (header : List Cell) (data : List (List Cell)) :
    preDropStage header data
      = DF.mk CANONICAL_COLUMNS ((projectedStage header data).rows.map coerceRow) :=
  coerceStage_eq (projectedStage header data).rows

theorem addMissing_cols (df : DF) :
    (addMissingCanonical df).cols
      = df.cols ++ CANONICAL_COLUMNS.filter (fun c => !(df.cols.contains c)) := rfl

theorem addMissing_rows (df : DF) :
    (addMissingCanonical df).rows
      = df.rows.map (fun r =>
          r ++ (CANONICAL_COLUMNS.filter (fun c => !(df.cols.contains c))).map
            (fun _ => Cell.pyNone)) := rfl

theorem clean_column_names_rows (df : DF) (m : List (String × String)) :
    (clean_column_names df m).rows = df.rows := rfl

theorem loadDF_rows (header : List Cell) (data : List (List Cell)) :
    (loadDF header data).rows = data.map (setWidth (header.map cellStr).length) := rfl

theorem contains_eq_false (l : List String) (a : String) (h : a ∉ l) :
    l.contains a = false := by
  simpa using h

theorem clean_cols_length (header : List Cell) (data : List (List Cell)) :
    (clean_column_names (loadDF header data) COLUMN_MAP).cols.length
      = (header.map cellStr).length := by
  simp [clean_column_names, loadDF]

theorem rowGet_map_canonical (g : String → Cell) (c : String) (i : Nat)
    (hci : colIndex c CANONICAL_COLUMNS = some i) :
    rowGet CANONICAL_COLUMNS (CANONICAL_COLUMNS.map g) c = g c := by
  obtain ⟨hlt, hget⟩ := colIndex_some _ _ _ hci
  unfold rowGet
  rw [hci]
  show (CANONICAL_COLUMNS.map g).getD i Cell.na = g c
  rw [getD_map _ _ _ hlt _ c, hget c]

theorem rowGet_addMissing_absent (df : DF) (w : List Cell) (c : String)
    (hwlen : w.length = df.cols.length)
    (hc : c ∈ CANONICAL_COLUMNS) (habs : c ∉ df.cols) :
    rowGet (addMissingCanonical df).cols
      (w ++ (CANONICAL_COLUMNS.filter (fun x => !(df.cols.contains x))).map
        (fun _ => Cell.pyNone)) c = Cell.pyNone := by
  have hnone1 : colIndex c df.cols = none := (colIndex_eq_none _ _).2 habs
  have hcont : df.cols.contains c = false := contains_eq_false _ _ habs
  have hmem : c ∈ CANONICAL_COLUMNS.filter (fun x => !(df.cols.contains x)) :=
    List.mem_filter.2 ⟨hc, by rw [hcont]; rfl⟩
  obtain ⟨j, hcj⟩ : ∃ j, colIndex c (CANONICAL_COLUMNS.filter
      (fun x => !(df.cols.contains x))) = some j := by
    cases hnone2 : colIndex c (CANONICAL_COLUMNS.filter (fun x => !(df.cols.contains x))) with
    | none => exact absurd ((colIndex_eq_none _ _).1 hnone2) (by simpa using hmem)
    | some j => exact ⟨j, rfl⟩
  obtain ⟨hjlt, _⟩ := colIndex_some _ _ _ hcj
  unfold rowGet
  rw [addMissing_cols, colIndex_append_none _ _ _ hnone1, hcj]
  simp only [Option.map_some']
  show (w ++ (CANONICAL_COLUMNS.filter (fun x => !(df.cols.contains x))).map
      (fun _ => Cell.pyNone)).getD (df.cols.length + j) Cell.na = Cell.pyNone
  rw [← hwlen, getD_append_right, getD_map _ _ _ hjlt _ c]

theorem projectedStage_absent_isNA (header : List Cell) (data : List (List Cell)) (c : String)
    (hc : c ∈ CANONICAL_COLUMNS)
    (habs : c ∉ (clean_column_names (loadDF header data) COLUMN_MAP).cols) :
    ∀ r ∈ (projectedStage header data).rows, isNA (rowGet CANONICAL_COLUMNS r c) = true := by
  intro r hr
  unfold projectedStage projectCanonical at hr
  simp only [List.mem_map] at hr
  obtain ⟨r0, hr0, rfl⟩ := hr
  obtain ⟨i, hci⟩ : ∃ i, colIndex c CANONICAL_COLUMNS = some i := by
    cases hnone : colIndex c CANONICAL_COLUMNS with
    | none => exact absurd ((colIndex_eq_none _ _).1 hnone) (by simpa using hc)
    | some i => exact ⟨i, rfl⟩
  rw [rowGet_map_canonical _ c i hci]
  rw [addMissing_rows, clean_column_names_rows, loadDF_rows] at hr0
  simp only [List.mem_map] at hr0
  obtain ⟨w0, hw0, rfl⟩ := hr0
  obtain ⟨w1, _, rfl⟩ := hw0
  rw [rowGet_addMissing_absent _ _ c (by rw [setWidth_length, clean_cols_length]) hc habs]
  rfl

theorem all_iff_getD (p : Cell → Bool) (l : List Cell) :
    l.all p = true ↔ ∀ j, j < l.length → p (l.getD j Cell.na) = true := by
  induction l with
  | nil => simp
  | cons c cs ih =>
    simp only [List.all_cons, Bool.and_eq_true, ih, List.length_cons]
    constructor
    · rintro ⟨h1, h2⟩ j hj
      cases j with
      | zero => simpa using h1
      | succ j => simpa using h2 j (by omega)
    · intro hh
      exact ⟨by simpa using hh 0 (by omega), fun j hj => by simpa using hh (j + 1) (by omega)⟩

theorem findHeaderAux_some (k : String) (l : List (List Cell)) (i0 i : Nat)
    (h : findHeaderAux k i0 l = some i) :
    i0 ≤ i ∧ i - i0 < l.length ∧ rowMatchesKeyword k (l.getD (i - i0) []) = true ∧
    ∀ j, j < i - i0 → rowMatchesKeyword k (l.getD j []) = false := by
  induction l generalizing i0 with
  | nil => simp [findHeaderAux] at h
  | cons row rest ih =>
    by_cases hm : rowMatchesKeyword k row = true
    · rw [findHeaderAux, if_pos hm] at h
      obtain rfl := Option.some.inj h
      exact ⟨Nat.le_refl _, by simp, by simpa using hm, fun j hj => absurd hj (by omega)⟩
    · have hm' : rowMatchesKeyword k row = false := by simpa using hm
      rw [findHeaderAux, if_neg hm] at h
      obtain ⟨h1, h2, h3, h4⟩ := ih (i0 + 1) h
      have hsub : i - i0 = (i - (i0 + 1)) + 1 := by omega
      refine ⟨by omega, by simp only [List.length_cons]; omega, ?_, ?_⟩
      · rw [hsub]
        simpa using h3
      · intro j hj
        cases j with
        | zero => simpa using hm'
        | succ j =>
          have := h4 j (by omega)
          simpa using this

theorem findHeaderAux_none (k : String) (l : List (List Cell)) (i0 : Nat)
    (h : ∀ j, j < l.length → rowMatchesKeyword k (l.getD j []) = false) :
    findHeaderAux k i0 l = none := by
  induction l generalizing i0 with
  | nil => rfl
  | cons row rest ih =>
    have h0 : rowMatchesKeyword k row = false := by simpa using h 0 (by simp)
    rw [findHeaderAux, if_neg (by simp [h0])]
    exact ih (i0 + 1) (fun j hj => by simpa using h (j + 1) (by simpa using Nat.succ_lt_succ hj))

theorem aggregate_cols (dfs : List DF) : (aggregate dfs).cols = CANONICAL_COLUMNS := by
  unfold aggregate astypeStrCol
  rw [mapCol_cols, mapCol_cols]
  rfl

/-! The claims. -/

/-- C1: every per-file output carries exactly the 21 canonical columns, in
canonical order (hence every non-canonical source column is excluded), the
combined data set carries the same columns, and every canonical field
absent from the cleaned/renamed source columns is missing in every output
row. -/
theorem C1_canonical_columns (sheet : List (List Cell)) (df : DF)
    (h : process_sales_file sheet = some df) :
    CANONICAL_COLUMNS.length = 21 ∧
    df.cols = CANONICAL_COLUMNS ∧
    (∀ dfs : List DF, (aggregate dfs).cols = CANONICAL_COLUMNS) ∧
    (∀ hi, find_header_row sheet "BOROUGH" = some hi →
      ∀ c ∈ CANONICAL_COLUMNS, c ∉ sourceCols sheet hi →
        ∀ r ∈ df.rows, isNA (rowGet df.cols r c) = true) := by
  refine ⟨rfl, process_cols _ _ h, fun dfs => aggregate_cols dfs, ?_⟩
  intro hi hfind c hc habs r hr
  have hdf : df = dropAllNa (preDropStage ((sheet.drop hi).headD []) (sheet.drop (hi + 1))) := by
    unfold process_sales_file at h
    rw [hfind] at h
    exact (Option.some.inj h).symm
  subst hdf
  rw [dropAllNa_cols, preDropStage_cols]
  rw [dropAllNa_rows] at hr
  have hr' : r ∈ (preDropStage ((sheet.drop hi).headD []) (sheet.drop (hi + 1))).rows :=
    List.mem_of_mem_filter hr
  have h1 := foldlMapCol_isNA numeric_cols toNumericCell
    (projectedStage ((sheet.drop hi).headD []) (sheet.drop (hi + 1))) c
    (fun _ hx => isNA_toNumericCell hx)
    (projectedStage_absent_isNA ((sheet.drop hi).headD []) (sheet.drop (hi + 1)) c hc habs)
  have h2 := mapCol_isNA
    (numeric_cols.foldl (fun d cc => mapCol d cc toNumericCell)
      (projectedStage ((sheet.drop hi).headD []) (sheet.drop (hi + 1))))
    "sale_date" toDatetimeCell c (fun _ hx => isNA_toDatetimeCell hx) h1
  have h3 := h2 r hr'
  rwa [mapCol_cols, foldlMapCol_cols, projectedStage_cols] at h3

/-- Witness for C1 at a sheet with an extra non-canonical column (dropped)
and a missing neighborhood column (present, all-missing). -/
theorem C1_canonical_columns_witness :
    dfAddrJunk.cols = CANONICAL_COLUMNS ∧
    isNA (rowGet dfAddrJunk.cols rowAddrJunk "neighborhood") = true := by
  have h := C1_canonical_columns sheetAddrJunk dfAddrJunk (by decide)
  exact ⟨h.2.1, h.2.2.2 0 (by decide) "neighborhood" (by decide) (by decide) rowAddrJunk (by decide)⟩

/-- C2: every alias of the static table canonicalizes to its documented
canonical name; cleaning (whitespace-run collapse, trim, lower-case) makes
the lookup case- and whitespace-insensitive, as on the documented
examples; a label whose cleaned form has no alias entry keeps its cleaned
form. -/
theorem C2_alias_canonicalization :
    (∀ p ∈ COLUMN_MAP, canonName p.1 = p.2) ∧
    canonName "Tax Class At Present" = "tax_class_at_present" ∧
    canonName "tax class as of final roll 18/19" = "tax_class_at_present" ∧
    canonName " TAX\n CLASS   AT PRESENT " = "tax_class_at_present" ∧
    (∀ s : String, canonName s = (lookupMap COLUMN_MAP (clean_name s)).getD (clean_name s)) ∧
    (∀ s : String, lookupMap COLUMN_MAP (clean_name s) = none → canonName s = clean_name s) := by
  refine ⟨by decide, by decide, by decide, by decide, fun s => rfl, fun s h => ?_⟩
  unfold canonName
  rw [h]
  rfl

/-- Witness for C2 at a label with no alias entry. -/
theorem C2_alias_canonicalization_witness :
    lookupMap COLUMN_MAP (clean_name "Extra Column") = none ∧
    canonName "Extra Column" = clean_name "Extra Column" :=
  ⟨by decide, C2_alias_canonicalization.2.2.2.2.2 "Extra Column" (by decide)⟩

/-- C3: the header locator depends only on the first 10 rows; a returned
index is below 10 and within the sheet, its row contains a cell whose
trimmed upper-cased text equals the keyword, no earlier row does; and when
no row of the 10-row window matches (in particular when the keyword first
appears at row 10 or later), it reports not-found. -/
theorem C3_header_locator (sheet : List (List Cell)) (k : String) :
    find_header_row sheet k = find_header_row (sheet.take 10) k ∧
    (∀ i, find_header_row sheet k = some i →
      i < 10 ∧ i < sheet.length ∧ rowMatchesKeyword k (sheet.getD i []) = true ∧
      ∀ j, j < i → rowMatchesKeyword k (sheet.getD j []) = false) ∧
    ((∀ j, j < 10 → j < sheet.length → rowMatchesKeyword k (sheet.getD j []) = false) →
      find_header_row sheet k = none) := by
  refine ⟨?_, ?_, ?_⟩
  · unfold find_header_row
    rw [List.take_take, Nat.min_self]
  · intro i h
    unfold find_header_row at h
    obtain ⟨_, h2, h3, h4⟩ := findHeaderAux_some _ _ _ _ h
    simp only [Nat.sub_zero] at h2 h3 h4
    rw [List.length_take] at h2
    have hi10 : i < 10 := by omega
    have hilen : i < sheet.length := by omega
    refine ⟨hi10, hilen, ?_, ?_⟩
    · rwa [getD_take _ _ _ _ hi10] at h3
    · intro j hj
      have := h4 j hj
      rwa [getD_take _ _ _ _ (by omega)] at this
  · intro hall
    unfold find_header_row
    apply findHeaderAux_none
    intro j hj
    rw [List.length_take] at hj
    rw [getD_take _ _ _ _ (by omega)]
    exact hall j (by omega) (by omega)

/-- Witness for C3: a keyword at row index 1 is located there, and a sheet
whose keyword first appears at row index 10 reports not-found. -/
theorem C3_header_locator_witness :
    (1 < 10 ∧ 1 < ([[Cell.str "x"], [Cell.str " borough "]] : List (List Cell)).length ∧
      rowMatchesKeyword "BOROUGH"
        (([[Cell.str "x"], [Cell.str " borough "]] : List (List Cell)).getD 1 []) = true ∧
      ∀ j, j < 1 → rowMatchesKeyword "BOROUGH"
        (([[Cell.str "x"], [Cell.str " borough "]] : List (List Cell)).getD j []) = false) ∧
    find_header_row sheetKeywordLate "BOROUGH" = none :=
  ⟨(C3_header_locator [[Cell.str "x"], [Cell.str " borough "]] "BOROUGH").2.1 1 (by decide),
   (C3_header_locator sheetKeywordLate "BOROUGH").2.2 (by decide)⟩

/-- C4: after the final stage of the per-file processor, every row whose
21 fields are all missing has been removed, and every pre-drop row with at
least one non-missing field is retained in the output. -/
theorem C4_empty_row_drop (sheet : List (List Cell)) (df : DF)
    (h : process_sales_file sheet = some df) :
    (∀ r ∈ df.rows, rowAllNA r = false) ∧
    (∀ hi, find_header_row sheet "BOROUGH" = some hi →
      ∀ r ∈ (preDropStage ((sheet.drop hi).headD []) (sheet.drop (hi + 1))).rows,
        rowAllNA r = false → r ∈ df.rows) := by
  constructor
  · intro r hr
    obtain ⟨hi, _, rfl⟩ := process_some_elim sheet df h
    rw [dropAllNa_rows] at hr
    have := List.of_mem_filter hr
    simpa using this
  · intro hi hfind r hr hne
    have hdf : df
        = dropAllNa (preDropStage ((sheet.drop hi).headD []) (sheet.drop (hi + 1))) := by
      unfold process_sales_file at h
      rw [hfind] at h
      exact (Option.some.inj h).symm
    subst hdf
    rw [dropAllNa_rows]
    exact List.mem_filter.2 ⟨hr, by simp [hne]⟩

/-- Witness for C4: the kept row of `sheetBorOnly` has a non-missing field
and survives into the output. -/
theorem C4_empty_row_drop_witness :
    rowBorOnly ∈ dfBorOnly.rows ∧ rowAllNA rowBorOnly = false := by
  have h := C4_empty_row_drop sheetBorOnly dfBorOnly (by decide)
  exact ⟨h.2 0 (by decide) rowBorOnly (by decide) (by decide), by decide⟩

/-- C5 counterexample: exceptions do escape the normalizer.  A spreadsheet
whose read raises a non-ValueError (for instance `BadZipFile` on a corrupt
file) escapes `process_sales_file`; an unreadable raw-data directory and a
failing output write escape `main`. -/
theorem C5_counterexample :
    process_sales_fileE (ExcelFile.bad (PyErr.other "BadZipFile: corrupt file"))
      = Except.error (PyErr.other "BadZipFile: corrupt file") ∧
    mainE (DirListing.err (PyErr.other "PermissionError: raw dir unreadable")) none
      = Except.error (PyErr.other "PermissionError: raw dir unreadable") ∧
    mainE (DirListing.ok [ExcelFile.good sheetBorOnly])
        (some (PyErr.other "OSError: write failed"))
      = Except.error (PyErr.other "OSError: write failed") := by
  refine ⟨rfl, rfl, rfl⟩

/-- C5 amended: only the `ValueError` of header location is caught and
absorbed (the file is skipped); any other failure — a malformed
spreadsheet read, an unreadable input directory, a failing output write —
propagates as an exception to the caller. -/
theorem C5_amended_error_handling :
    (∀ f m, find_header_rowE f "BOROUGH" = Except.error (PyErr.valueError m) →
      process_sales_fileE f = Except.ok none) ∧
    (∀ m, process_sales_fileE (ExcelFile.bad (PyErr.other m))
      = Except.error (PyErr.other m)) ∧
    (∀ e w, mainE (DirListing.err e) w = Except.error e) ∧
    (∀ files optDfs e, processAllE files = Except.ok optDfs →
      files.isEmpty = false → (optDfs.filterMap id).isEmpty = false →
      mainE (DirListing.ok files) (some e) = Except.error e) := by
  refine ⟨?_, fun m => rfl, fun e w => rfl, ?_⟩
  · intro f m hf
    unfold process_sales_fileE
    rw [hf]
  · intro files optDfs e hall hne hdf
    simp only [mainE, hall, hne, hdf, Bool.false_eq_true, if_false]

/-- Witness for C5 (amended): a readable sheet without the keyword is
absorbed into `None`; a failing write propagates out of `main`. -/
theorem C5_amended_error_handling_witness :
    process_sales_fileE (ExcelFile.good sheetNoKeyword) = Except.ok none ∧
    mainE (DirListing.ok [ExcelFile.good sheetBorOnly]) (some (PyErr.other "boom"))
      = Except.error (PyErr.other "boom") :=
  ⟨C5_amended_error_handling.1 (ExcelFile.good sheetNoKeyword)
      "Header keyword not found in the first 10 rows" rfl,
   C5_amended_error_handling.2.2.2 [ExcelFile.good sheetBorOnly] [some dfBorOnly]
      (PyErr.other "boom") rfl rfl rfl⟩

theorem parseDigitsAux_all_digits (l : List Char) (acc : Nat)
    (h : ∀ ch ∈ l, ch.isDigit = true) :
    parseDigitsAux acc l = some (l.foldl (fun a ch => a * 10 + digitVal ch) acc) := by
  induction l generalizing acc with
  | nil => rfl
  | cons c cs ih =>
    rw [parseDigitsAux, if_pos (h c (List.mem_cons_self c cs)), List.foldl_cons]
    exact ih _ (fun ch hch => h ch (List.mem_cons_of_mem c hch))

theorem foldl_digits_ofDigits (l : List Char) (acc : Nat) :
    l.foldl (fun a ch => a * 10 + digitVal ch) acc
      = acc * 10 ^ l.length + Nat.ofDigits 10 (l.reverse.map digitVal) := by
  induction l generalizing acc with
  | nil => simp [Nat.ofDigits]
  | cons c cs ih =>
    rw [List.foldl_cons, ih, List.reverse_cons, List.map_append, Nat.ofDigits_append]
    simp only [List.length_map, List.length_reverse, List.length_cons, List.map_cons,
      List.map_nil, Nat.ofDigits_singleton]
    ring

theorem parseIntStr_digits (s : String) (hne : s.data ≠ [])
    (hd : ∀ ch ∈ s.data, ch.isDigit = true) (htrim : trimStr s = s) :
    parseIntStr s = some ((Nat.ofDigits 10 (s.data.reverse.map digitVal) : Nat) : Int) := by
  unfold parseIntStr
  rw [htrim]
  cases hsd : s.data with
  | nil => exact absurd hsd hne
  | cons c cs =>
    rw [hsd] at hd
    have hcdig : c.isDigit = true := hd c (List.mem_cons_self c cs)
    have hcne : ¬ c = '-' := by
      intro he
      rw [he] at hcdig
      exact absurd hcdig (by decide)
    rw [parseIntChars, if_neg hcne]
    show (parseDigitsAux 0 (c :: cs)).map (fun n => (n : Int)) = _
    rw [parseDigitsAux_all_digits (c :: cs) 0 hd, foldl_digits_ofDigits]
    simp

/-- C6: cell-level numeric coercion is total and yields a number or a
missing marker — never an error: the unparseable "1,200" and the blank
cell become missing, while a pure digit string parses to the number whose
decimal digits it spells; date coercion is total under the same policy. -/
theorem C6_coercion_total (s : String) :
    (∀ c, (∃ n, toNumericCell c = Cell.num n) ∨ toNumericCell c = Cell.na) ∧
    toNumericCell (Cell.str "1,200") = Cell.na ∧
    toNumericCell Cell.na = Cell.na ∧
    (s.data ≠ [] → (∀ ch ∈ s.data, ch.isDigit = true) → trimStr s = s →
      toNumericCell (Cell.str s)
        = Cell.num ((Nat.ofDigits 10 (s.data.reverse.map digitVal) : Nat) : Int)) ∧
    (∀ c, (∃ d, toDatetimeCell c = Cell.date d) ∨ toDatetimeCell c = Cell.na) := by
  refine ⟨?_, by decide, rfl, ?_, ?_⟩
  · intro c
    cases c with
    | na => exact Or.inr rfl
    | pyNone => exact Or.inr rfl
    | num n => exact Or.inl ⟨n, rfl⟩
    | date d => exact Or.inr rfl
    | str t =>
      cases hp : parseIntStr t with
      | none => exact Or.inr (by simp [toNumericCell, hp])
      | some n => exact Or.inl ⟨n, by simp [toNumericCell, hp]⟩
  · intro hne hd htrim
    simp [toNumericCell, parseIntStr_digits s hne hd htrim]
  · intro c
    cases c with
    | na => exact Or.inr rfl
    | pyNone => exact Or.inr rfl
    | num n => exact Or.inl ⟨n, rfl⟩
    | date d => exact Or.inl ⟨d, rfl⟩
    | str t =>
      cases hp : parseDateStr t with
      | none => exact Or.inr (by simp [toDatetimeCell, hp])
      | some d => exact Or.inl ⟨d, by simp [toDatetimeCell, hp]⟩

/-- Witness for C6 at the digit string "1200". -/
theorem C6_coercion_total_witness :
    trimStr "1200" = "1200" ∧
    toNumericCell (Cell.str "1200")
      = Cell.num ((Nat.ofDigits 10 (("1200" : String).data.reverse.map digitVal) : Nat) : Int) :=
  ⟨by decide, (C6_coercion_total "1200").2.2.2.1 (by decide) (by decide) (by decide)⟩

/-- C7: a file whose header is not located is skipped and contributes zero
rows while the run continues over the remaining files; when every file
fails, the run reports the empty corpus by producing no combined output at
all (a value, not a crash). -/
theorem C7_skip_and_empty_corpus (pre post : List (List (List Cell)))
    (bad : List (List Cell))
    (hbad : find_header_row bad "BOROUGH" = none) :
    runNormalizer (pre ++ bad :: post) = runNormalizer (pre ++ post) ∧
    (∀ sheets : List (List (List Cell)),
      (∀ s ∈ sheets, find_header_row s "BOROUGH" = none) → runNormalizer sheets = none) := by
  have hpb : process_sales_file bad = none := by
    unfold process_sales_file
    rw [hbad]
  constructor
  · unfold runNormalizer
    rw [List.filterMap_append, List.filterMap_append, List.filterMap_cons_none hpb]
  · intro sheets hall
    unfold runNormalizer
    have hnil : sheets.filterMap process_sales_file = [] := by
      rw [List.filterMap_eq_nil_iff]
      intro s hs
      unfold process_sales_file
      rw [hall s hs]
    rw [hnil]
    rfl

/-- Witness for C7: the keyword-less sheet contributes nothing next to a
good sheet, and alone it yields the empty corpus. -/
theorem C7_skip_and_empty_corpus_witness :
    runNormalizer [sheetBorOnly, sheetNoKeyword] = runNormalizer [sheetBorOnly] ∧
    runNormalizer [sheetNoKeyword] = none :=
  ⟨(C7_skip_and_empty_corpus [sheetBorOnly] [] sheetNoKeyword (by decide)).1,
   (C7_skip_and_empty_corpus [] [] sheetNoKeyword (by decide)).2 [sheetNoKeyword] (by decide)⟩

/-- C8: the fetcher builds the filename of both the URL and the local path
from the raw underscore borough name for every (year, borough) pair; the
hyphenated form is computed but never used, so replacing the hyphenation
function changes nothing.  The enumeration is the expected 35 pairs. -/
theorem C8_fetcher_underscore_filename :
    (∀ (g : String → String) (year : Nat) (borough : String),
      fetchTargetWith g year borough = fetchTarget year borough) ∧
    (∀ (year : Nat) (borough : String),
      (fetchTarget year borough).url
          = BASE_URL ++ toString year ++ "/" ++ (toString year ++ "_" ++ borough ++ ".xlsx") ∧
      (fetchTarget year borough).path
          = "data/raw/" ++ (toString year ++ "_" ++ borough ++ ".xlsx")) ∧
    fileBoroughName "staten_island" = "staten-island" ∧
    "staten_island" ∈ BOROUGHS ∧
    (fetchTarget 2018 "staten_island").url
      = BASE_URL ++ "2018/2018_staten_island.xlsx" ∧
    total_files = 35 :=
  ⟨fun g year borough => rfl, fun year borough => ⟨rfl, rfl⟩, by decide, by decide,
   by decide, by decide⟩


theorem mapAt_getD_ne (f : Cell → Cell) (i : Nat) (r : List Cell) (j : Nat) (d : Cell)
    (h : i ≠ j) : (mapAt f i r).getD j d = r.getD j d := by
  rw [mapAt_getD, if_neg]
  intro hc
  exact h hc.1

theorem mapAt_getD_eq (f : Cell → Cell) (i : Nat) (r : List Cell) (d : Cell)
    (h : i < r.length) : (mapAt f i r).getD i d = f (r.getD i d) := by
  rw [mapAt_getD, if_pos ⟨rfl, h⟩]

/-- C9 counterexample: in the combined output of a source lacking the
tax-class column, the back-filled missing value surfaces as the string
"None", not "nan". -/
theorem C9_counterexample :
    (process_sales_file sheetAddrOnly).map
        (fun d => rowGet d.cols (d.rows.getD 0 []) "tax_class_at_present")
      = some Cell.pyNone ∧
    isNA Cell.pyNone = true ∧
    (runNormalizer [sheetAddrOnly]).map
        (fun m => rowGet m.cols (m.rows.getD 0 []) "tax_class_at_present")
      = some (Cell.str "None") ∧
    Cell.str "None" ≠ Cell.str "nan" :=
  ⟨by decide, rfl, by decide, by decide⟩

/-- C9 amended: in the combined data set every value of the two
text-coerced columns is a string; the final text coercion renders a NaN
missing value as "nan" but a back-filled Python `None` as "None". -/
theorem C9_text_coercion (sheets : List (List (List Cell))) (m : DF)
    (h : runNormalizer sheets = some m) :
    (∀ r ∈ m.rows,
      (∃ s, rowGet m.cols r "tax_class_at_present" = Cell.str s) ∧
      (∃ s, rowGet m.cols r "apartment_number" = Cell.str s)) ∧
    astypeStrCell Cell.na = Cell.str "nan" ∧
    astypeStrCell Cell.pyNone = Cell.str "None" := by
  refine ⟨?_, rfl, rfl⟩
  have hm : m = aggregate (sheets.filterMap process_sales_file) := by
    simp only [runNormalizer] at h
    by_cases he : (sheets.filterMap process_sales_file).isEmpty = true
    · rw [if_pos he] at h
      exact absurd h (by simp)
    · rw [if_neg he] at h
      exact (Option.some.inj h).symm
  subst hm
  intro r hr
  have hrows : (aggregate (sheets.filterMap process_sales_file)).rows
      = (((sheets.filterMap process_sales_file).map DF.rows).flatten.map
          (mapAt astypeStrCell 3)).map (mapAt astypeStrCell 9) := by
    unfold aggregate astypeStrCol concatDFs
    rw [mapCol_mk_canonical "tax_class_at_present" _ 3 _ rfl,
        mapCol_mk_canonical "apartment_number" _ 9 _ rfl]
  rw [hrows] at hr
  simp only [List.mem_map] at hr
  obtain ⟨r1, hr1, rfl⟩ := hr
  obtain ⟨r0, hr0, rfl⟩ := hr1
  obtain ⟨rs, hrs, hr0m⟩ := List.mem_flatten.1 hr0
  simp only [List.mem_map] at hrs
  obtain ⟨d, hd2, rfl⟩ := hrs
  obtain ⟨s0, hs0, hps⟩ := List.mem_filterMap.1 hd2
  have hlen : r0.length = 21 := process_row_length s0 d hps r0 hr0m
  rw [aggregate_cols]
  constructor
  · refine ⟨cellStr (r0.getD 3 Cell.na), ?_⟩
    show (mapAt astypeStrCell 9 (mapAt astypeStrCell 3 r0)).getD 3 Cell.na
        = Cell.str (cellStr (r0.getD 3 Cell.na))
    rw [mapAt_getD_ne _ _ _ _ _ (by decide), mapAt_getD_eq _ _ _ _ (by rw [hlen]; decide)]
    rfl
  · refine ⟨cellStr (r0.getD 9 Cell.na), ?_⟩
    show (mapAt astypeStrCell 9 (mapAt astypeStrCell 3 r0)).getD 9 Cell.na
        = Cell.str (cellStr (r0.getD 9 Cell.na))
    rw [mapAt_getD_eq _ _ _ _ (by rw [mapAt_length, hlen]; decide),
        mapAt_getD_ne _ _ _ _ _ (by decide)]
    rfl

/-- Witness for C9 (amended) on the concrete combined data set of
`sheetAddrOnly`. -/
theorem C9_text_coercion_witness :
    (∃ s, rowGet dfAddrOnly.cols rowAddrOnly "tax_class_at_present" = Cell.str s) ∧
    (∃ s, rowGet dfAddrOnly.cols rowAddrOnly "apartment_number" = Cell.str s) :=
  (C9_text_coercion [sheetAddrOnly] dfAddrOnly (by decide)).1 rowAddrOnly (by decide)

theorem coerceRow_allNA (r : List Cell) (hlen : r.length = 21)
    (hcells : ∀ c ∈ CANONICAL_COLUMNS,
      isNA (rowGet CANONICAL_COLUMNS r c) = true ∨
      (c ∈ numeric_cols ∧ ∃ s, rowGet CANONICAL_COLUMNS r c = Cell.str s ∧
        parseIntStr s = none) ∨
      (c = "sale_date" ∧ ∃ s, rowGet CANONICAL_COLUMNS r c = Cell.str s ∧
        parseDateStr s = none)) :
    rowAllNA (coerceRow r) = true := by
  cases r with
  | nil => simp at hlen
  | cons a0 r =>
    cases r with
    | nil => simp at hlen
    | cons a1 r =>
      cases r with
      | nil => simp at hlen
      | cons a2 r =>
        cases r with
        | nil => simp at hlen
        | cons a3 r =>
          cases r with
          | nil => simp at hlen
          | cons a4 r =>
            cases r with
            | nil => simp at hlen
            | cons a5 r =>
              cases r with
              | nil => simp at hlen
              | cons a6 r =>
                cases r with
                | nil => simp at hlen
                | cons a7 r =>
                  cases r with
                  | nil => simp at hlen
                  | cons a8 r =>
                    cases r with
                    | nil => simp at hlen
                    | cons a9 r =>
                      cases r with
                      | nil => simp at hlen
                      | cons a10 r =>
                        cases r with
                        | nil => simp at hlen
                        | cons a11 r =>
                          cases r with
                          | nil => simp at hlen
                          | cons a12 r =>
                            cases r with
                            | nil => simp at hlen
                            | cons a13 r =>
                              cases r with
                              | nil => simp at hlen
                              | cons a14 r =>
                                cases r with
                                | nil => simp at hlen
                                | cons a15 r =>
                                  cases r with
                                  | nil => simp at hlen
                                  | cons a16 r =>
                                    cases r with
                                    | nil => simp at hlen
                                    | cons a17 r =>
                                      cases r with
                                      | nil => simp at hlen
                                      | cons a18 r =>
                                        cases r with
                                        | nil => simp at hlen
                                        | cons a19 r =>
                                          cases r with
                                          | nil => simp at hlen
                                          | cons a20 r =>
                                            cases r with
                                            | cons b t => simp at hlen
                                            | nil =>
                                              show rowAllNA [a0, a1, a2, a3, toNumericCell a4, toNumericCell a5, a6, a7, a8, a9, toNumericCell a10, toNumericCell a11, toNumericCell a12, toNumericCell a13, toNumericCell a14, toNumericCell a15, toNumericCell a16, a17, a18, toNumericCell a19, toDatetimeCell a20] = true
                                              simp only [rowAllNA, List.all_cons, List.all_nil, Bool.and_eq_true,
                                                Bool.and_true, and_true]
                                              refine ⟨?_, ?_, ?_, ?_, ?_, ?_, ?_, ?_, ?_, ?_, ?_, ?_, ?_, ?_, ?_, ?_, ?_, ?_, ?_, ?_, ?_⟩
                                              · rcases hcells "borough" (by decide) with h | ⟨habs, _⟩ | ⟨habs, _⟩
                                                · exact h
                                                · exact absurd habs (by decide)
                                                · exact absurd habs (by decide)
                                              · rcases hcells "neighborhood" (by decide) with h | ⟨habs, _⟩ | ⟨habs, _⟩
                                                · exact h
                                                · exact absurd habs (by decide)
                                                · exact absurd habs (by decide)
                                              · rcases hcells "building_class_category" (by decide) with h | ⟨habs, _⟩ | ⟨habs, _⟩
                                                · exact h
                                                · exact absurd habs (by decide)
                                                · exact absurd habs (by decide)
                                              · rcases hcells "tax_class_at_present" (by decide) with h | ⟨habs, _⟩ | ⟨habs, _⟩
                                                · exact h
                                                · exact absurd habs (by decide)
                                                · exact absurd habs (by decide)
                                              · rcases hcells "block" (by decide) with h | ⟨_, hex⟩ | ⟨habs, _⟩
                                                · exact isNA_toNumericCell h
                                                · exact isNA_toNumericCell_of _ (Or.inr hex)
                                                · exact absurd habs (by decide)
                                              · rcases hcells "lot" (by decide) with h | ⟨_, hex⟩ | ⟨habs, _⟩
                                                · exact isNA_toNumericCell h
                                                · exact isNA_toNumericCell_of _ (Or.inr hex)
                                                · exact absurd habs (by decide)
                                              · rcases hcells "easement" (by decide) with h | ⟨habs, _⟩ | ⟨habs, _⟩
                                                · exact h
                                                · exact absurd habs (by decide)
                                                · exact absurd habs (by decide)
                                              · rcases hcells "building_class_at_present" (by decide) with h | ⟨habs, _⟩ | ⟨habs, _⟩
                                                · exact h
                                                · exact absurd habs (by decide)
                                                · exact absurd habs (by decide)
                                              · rcases hcells "address" (by decide) with h | ⟨habs, _⟩ | ⟨habs, _⟩
                                                · exact h
                                                · exact absurd habs (by decide)
                                                · exact absurd habs (by decide)
                                              · rcases hcells "apartment_number" (by decide) with h | ⟨habs, _⟩ | ⟨habs, _⟩
                                                · exact h
                                                · exact absurd habs (by decide)
                                                · exact absurd habs (by decide)
                                              · rcases hcells "zip_code" (by decide) with h | ⟨_, hex⟩ | ⟨habs, _⟩
                                                · exact isNA_toNumericCell h
                                                · exact isNA_toNumericCell_of _ (Or.inr hex)
                                                · exact absurd habs (by decide)
                                              · rcases hcells "residential_units" (by decide) with h | ⟨_, hex⟩ | ⟨habs, _⟩
                                                · exact isNA_toNumericCell h
                                                · exact isNA_toNumericCell_of _ (Or.inr hex)
                                                · exact absurd habs (by decide)
                                              · rcases hcells "commercial_units" (by decide) with h | ⟨_, hex⟩ | ⟨habs, _⟩
                                                · exact isNA_toNumericCell h
                                                · exact isNA_toNumericCell_of _ (Or.inr hex)
                                                · exact absurd habs (by decide)
                                              · rcases hcells "total_units" (by decide) with h | ⟨_, hex⟩ | ⟨habs, _⟩
                                                · exact isNA_toNumericCell h
                                                · exact isNA_toNumericCell_of _ (Or.inr hex)
                                                · exact absurd habs (by decide)
                                              · rcases hcells "land_square_feet" (by decide) with h | ⟨_, hex⟩ | ⟨habs, _⟩
                                                · exact isNA_toNumericCell h
                                                · exact isNA_toNumericCell_of _ (Or.inr hex)
                                                · exact absurd habs (by decide)
                                              · rcases hcells "gross_square_feet" (by decide) with h | ⟨_, hex⟩ | ⟨habs, _⟩
                                                · exact isNA_toNumericCell h
                                                · exact isNA_toNumericCell_of _ (Or.inr hex)
                                                · exact absurd habs (by decide)
                                              · rcases hcells "year_built" (by decide) with h | ⟨_, hex⟩ | ⟨habs, _⟩
                                                · exact isNA_toNumericCell h
                                                · exact isNA_toNumericCell_of _ (Or.inr hex)
                                                · exact absurd habs (by decide)
                                              · rcases hcells "tax_class_at_time_of_sale" (by decide) with h | ⟨habs, _⟩ | ⟨habs, _⟩
                                                · exact h
                                                · exact absurd habs (by decide)
                                                · exact absurd habs (by decide)
                                              · rcases hcells "building_class_at_time_of_sale" (by decide) with h | ⟨habs, _⟩ | ⟨habs, _⟩
                                                · exact h
                                                · exact absurd habs (by decide)
                                                · exact absurd habs (by decide)
                                              · rcases hcells "sale_price" (by decide) with h | ⟨_, hex⟩ | ⟨habs, _⟩
                                                · exact isNA_toNumericCell h
                                                · exact isNA_toNumericCell_of _ (Or.inr hex)
                                                · exact absurd habs (by decide)
                                              · rcases hcells "sale_date" (by decide) with h | ⟨habs, _⟩ | ⟨_, hex⟩
                                                · exact isNA_toDatetimeCell h
                                                · exact absurd habs (by decide)
                                                · exact isNA_toDatetimeCell_of _ (Or.inr hex)

/-- C10: because coercion of the numeric and date fields runs before the
all-empty drop, a projected row whose every field is either missing or an
unparseable string sitting in a numeric or date column coerces to the
all-missing row, which the per-file output then discards. -/
theorem C10_unparseable_row_discarded (sheet : List (List Cell)) (df : DF) (hi : Nat)
    (r : List Cell)
    (hproc : process_sales_file sheet = some df)
    (hfind : find_header_row sheet "BOROUGH" = some hi)
    (hr : r ∈ (projectedStage ((sheet.drop hi).headD []) (sheet.drop (hi + 1))).rows)
    (hcells : ∀ c ∈ CANONICAL_COLUMNS,
      isNA (rowGet CANONICAL_COLUMNS r c) = true ∨
      (c ∈ numeric_cols ∧ ∃ s, rowGet CANONICAL_COLUMNS r c = Cell.str s ∧
        parseIntStr s = none) ∨
      (c = "sale_date" ∧ ∃ s, rowGet CANONICAL_COLUMNS r c = Cell.str s ∧
        parseDateStr s = none)) :
    (preDropStage ((sheet.drop hi).headD []) (sheet.drop (hi + 1))).rows
        = (projectedStage ((sheet.drop hi).headD []) (sheet.drop (hi + 1))).rows.map coerceRow ∧
    rowAllNA (coerceRow r) = true ∧
    coerceRow r ∉ df.rows := by
  have hlen : r.length = 21 := projectedStage_row_length _ _ r hr
  have hall : rowAllNA (coerceRow r) = true :=
    coerceRow_allNA r hlen hcells
  refine ⟨by rw [preDropStage_eq], hall, ?_⟩
  intro hmem
  have hdf : df
      = dropAllNa (preDropStage ((sheet.drop hi).headD []) (sheet.drop (hi + 1))) := by
    unfold process_sales_file at hproc
    rw [hfind] at hproc
    exact (Option.some.inj hproc).symm
  subst hdf
  rw [dropAllNa_rows] at hmem
  have := List.of_mem_filter hmem
  rw [hall] at this
  exact absurd this (by decide)

/-- Witness for C10: the raw row of `sheetBadPrice` is not empty (it holds
the unparseable price "1,200"), yet its coerced form is all-missing and
the per-file output discards it. -/
theorem C10_unparseable_row_discarded_witness :
    rowAllNA projRowBadPrice = false ∧
    rowAllNA (coerceRow projRowBadPrice) = true ∧
    coerceRow projRowBadPrice ∉ dfBadPrice.rows := by
  have hc : ∀ c ∈ CANONICAL_COLUMNS,
      isNA (rowGet CANONICAL_COLUMNS projRowBadPrice c) = true ∨
      (c ∈ numeric_cols ∧ ∃ s, rowGet CANONICAL_COLUMNS projRowBadPrice c = Cell.str s ∧
        parseIntStr s = none) ∨
      (c = "sale_date" ∧ ∃ s, rowGet CANONICAL_COLUMNS projRowBadPrice c = Cell.str s ∧
        parseDateStr s = none) := by
    intro c hcm
    fin_cases hcm <;>
      first
        | exact Or.inl (by decide)
        | exact Or.inr (Or.inl ⟨by decide, "1,200", by decide, by decide⟩)
  have h := C10_unparseable_row_discarded sheetBadPrice dfBadPrice 0 projRowBadPrice
    (by decide) (by decide) (by decide) hc
  exact ⟨by decide, h.2.1, h.2.2⟩

end NycSales
